import Mathlib

/-!
Verification development for the project-iris Record Fusion & Ranked
Retrieval Engine.  The definitions below are a shallow embedding of the
Python source:

* `apps/scraper/merge_sources.py`  — `dedupe_publications`, `merge_faculty_record`
* `apps/scraper/api_enricher.py`   — `check_ksu_affiliation`, `names_match`,
  `merge_scholar_data`
* `apps/scraper/src/consortium/search_api.py` — the `/search` endpoint
  (weight validation, normalization maxima, filtering, weighted scoring).

Python dictionaries are embedded as structures whose fields are `Option`s
(`none` = key absent or `None`); Python `or`-chains over falsy values are
embedded by the `py*` helpers; Python floats are embedded as rationals;
Python `set` unions (whose iteration order is unspecified) are embedded as
first-occurrence-order deduplicated lists.
-/

set_option maxRecDepth 8000

namespace ProjectIris

/-! ### String helpers (Python `str` operations) -/

/-- `listPre n h`: `n` is a prefix of `h` (on character lists). -/
def listPre : List Char → List Char → Bool
  | [], _ => true
  | _ :: _, [] => false
  | a :: as, b :: bs => a == b && listPre as bs

/-- Python substring test `n in h` on character lists. -/
def listSub (n : List Char) : List Char → Bool
  | [] => n.isEmpty
  | c :: t => listPre n (c :: t) || listSub n t

/-- Python substring test `n in h` on strings. -/
def strIn (n h : String) : Bool := listSub n.data h.data

/-- Python `s.lower()` (ASCII case folding, as `Char.toLower`). -/
def toLowerStr (s : String) : String := String.mk (s.data.map Char.toLower)

/-- Python `s.strip()`: drop leading and trailing whitespace. -/
def stripChars (l : List Char) : List Char :=
  ((l.dropWhile Char.isWhitespace).reverse.dropWhile Char.isWhitespace).reverse

/-- Python `s.strip()` on strings. -/
def stripStr (s : String) : String := String.mk (stripChars s.data)

/-- Python `s.lower().strip()`. -/
def lowerStrip (s : String) : String := stripStr (toLowerStr s)

/-- Helper for `splitWs`: accumulates the current token (reversed). -/
def splitWsAux : List Char → List Char → List (List Char)
  | [], acc => if acc.isEmpty then [] else [acc.reverse]
  | c :: rest, acc =>
    if c.isWhitespace then
      if acc.isEmpty then splitWsAux rest [] else acc.reverse :: splitWsAux rest []
    else splitWsAux rest (c :: acc)

/-- Python `s.split()`: split on runs of whitespace, no empty tokens. -/
def splitWs (l : List Char) : List (List Char) := splitWsAux l []

/-! ### Python truthiness and `or`-chains -/

/-- Python `a or b` where `a` is an optional string (`None` and `""` are falsy). -/
def pyStr (a : Option String) (b : String) : String :=
  match a with
  | none => b
  | some s => if s = "" then b else s

/-- Python `a or b` where `a` is an optional number (`None` and `0` are falsy). -/
def pyNat (a : Option Nat) (b : Nat) : Nat :=
  match a with
  | none => b
  | some n => if n = 0 then b else n

/-- Truthiness of an optional string field. -/
def optStrTruthy (a : Option String) : Bool :=
  match a with
  | none => false
  | some s => !(s == "")

/-- Helper for `dedupFirst`. -/
def dedupFirstAux (seen : List String) : List String → List String
  | [] => []
  | s :: rest =>
    if s ∈ seen then dedupFirstAux seen rest
    else s :: dedupFirstAux (s :: seen) rest

/-- Deterministic embedding of a Python `set` built from a list:
keep the first occurrence of each element, in encounter order. -/
def dedupFirst (l : List String) : List String := dedupFirstAux [] l

/-- Deterministic embedding of Python `set(a) | set(b)` turned back into a list. -/
def unionList (a b : List String) : List String := dedupFirst (a ++ b)

/-! ### Data model

Publication and researcher-record dictionaries, with `Option` fields for
possibly-absent keys.  Field names follow the JSON keys used by the source. -/

/-- A publication dictionary (`merge_sources.py` / `api_enricher.py`). -/
structure Pub where
  title : Option String
  doi : Option String
  citations : Option Nat
  year : Option Int
  source : Option String
deriving DecidableEq

/-- The `scholar` sub-dictionary of a faculty record. -/
structure Scholar where
  scholar_id : Option String
  name : Option String
  affiliation : Option String
  interests : Option (List String)
  h_index : Option Nat
  i10_index : Option Nat
  total_citations : Option Nat
  citedby : Option Nat
  publications : Option (List Pub)
  publication_count : Option Nat
  sources : Option (List String)
  source : Option String
  ksu_verified : Option Bool
deriving DecidableEq

/-- A top-level faculty record (`merge_sources.py`). -/
@[ext]
structure Record where
  net_id : Option String
  h_index : Option Nat
  citation_count : Option Nat
  scholar : Option Scholar
  api_sources : Option (List String)
  google_scholar_id : Option String
  sources : Option (List String)
  ksu_verified : Option Bool
deriving DecidableEq

/-- A publication with every key absent. -/
def emptyPub : Pub := ⟨none, none, none, none, none⟩

/-- A scholar dictionary with every key absent (Python `{}`). -/
def emptyScholar : Scholar :=
  ⟨none, none, none, none, none, none, none, none, none, none, none, none, none⟩

/-- A record with every key absent (Python `{}`). -/
def emptyRecord : Record := ⟨none, none, none, none, none, none, none, none⟩

/-- Verified status of a record: its `ksu_verified` flag, absent meaning false. -/
def recVerified (r : Record) : Bool := r.ksu_verified.getD false

/-! ### `dedupe_publications` (merge_sources.py lines 27-51) -/

/-- Normalized title used by the deduplicator:
`(pub.get('title') or '').lower().strip()`. -/
def normTitle (p : Pub) : String := lowerStrip (p.title.getD "")

/-- The loop of `dedupe_publications`, threading the `seen_dois` and
`seen_titles` sets. -/
def dedupeGo (sd st : List String) : List Pub → List Pub
  | [] => []
  | p :: rest =>
    let d := p.doi.getD ""
    let t := normTitle p
    if optStrTruthy p.doi && decide (d ∈ sd) then
      dedupeGo sd st rest
    else if !(t == "") && st.any (fun u => strIn t u || strIn u t) then
      dedupeGo sd st rest
    else
      p :: dedupeGo (if optStrTruthy p.doi then d :: sd else sd)
        (if t == "" then st else t :: st) rest

/-- `dedupe_publications(pubs)`: remove duplicate publications by DOI
(exact string match on truthy DOIs) or by fuzzy title containment. -/
def dedupePublications (pubs : List Pub) : List Pub := dedupeGo [] [] pubs

/-- Blank publication: falsy DOI and empty normalized title. -/
def pubBlank (p : Pub) : Bool := !(optStrTruthy p.doi) && (normTitle p == "")

/-! ### `merge_faculty_record` (merge_sources.py lines 54-124) -/

/-- Ascending comparison for the Python sort key
`(-(p.get('citations') or 0), -(p.get('year') or 0))`. -/
def pubSortLe (p q : Pub) : Bool :=
  let cp := p.citations.getD 0
  let cq := q.citations.getD 0
  if cp = cq then decide (q.year.getD 0 ≤ p.year.getD 0) else decide (cq < cp)

/-- Stable insertion into a sorted list: the new element goes after all
elements that compare less-or-equal (Python `list.sort` stability). -/
def insOrd (le : α → α → Bool) (x : α) : List α → List α
  | [] => [x]
  | y :: ys => if le y x then y :: insOrd le x ys else x :: y :: ys

/-- Stable sort modelling Python `list.sort(key=...)`. -/
def stableSort (le : α → α → Bool) (l : List α) : List α :=
  l.foldl (fun acc x => insOrd le x acc) []

/-- `base.get('scholar') or {}`. -/
def schOf (o : Option Scholar) : Scholar := o.getD emptyScholar

/-- Effective h-index of a record:
`base.get('h_index') or base.get('scholar', {}).get('h_index') or 0`. -/
def effH (r : Record) : Nat := pyNat r.h_index (pyNat (r.scholar.bind Scholar.h_index) 0)

/-- Effective citation count of a record:
`base.get('citation_count') or base.get('scholar', {}).get('total_citations') or 0`. -/
def effC (r : Record) : Nat :=
  pyNat r.citation_count (pyNat (r.scholar.bind Scholar.total_citations) 0)

/-- The merged `scholar` dictionary built by `merge_faculty_record`
(lines 72-110).  Note which keys the new dictionary carries: `citedby`,
`sources`, `source` and `ksu_verified` are not among them. -/
def mergeScholar (bs os : Scholar) : Scholar :=
  let allPubs := (bs.publications.getD []) ++ (os.publications.getD [])
  let pubs := (dedupePublications (stableSort pubSortLe allPubs)).take 50
  { scholar_id := some (pyStr os.scholar_id (pyStr bs.scholar_id ""))
    name := some (pyStr os.name (pyStr bs.name ""))
    affiliation := some (pyStr os.affiliation (pyStr bs.affiliation ""))
    interests := some ((unionList (bs.interests.getD []) (os.interests.getD [])).take 15)
    h_index := some (max (pyNat bs.h_index 0) (pyNat os.h_index 0))
    i10_index := some (max (pyNat bs.i10_index 0) (pyNat os.i10_index 0))
    total_citations := some (max (pyNat bs.total_citations (pyNat bs.citedby 0))
      (pyNat os.total_citations (pyNat os.citedby 0)))
    citedby := none
    publications := some pubs
    publication_count := some pubs.length
    sources := none
    source := none
    ksu_verified := none }

/-- Google-Scholar provenance test (lines 117-120):
`r.get('google_scholar_id') or r_scholar.get('scholar_id', '').startswith('uk')`. -/
def gsCheck (r : Record) : Bool :=
  optStrTruthy r.google_scholar_id ||
    listPre "uk".data ((schOf r.scholar).scholar_id.getD "").data

/-- `merged['sources'] = list(base_sources | overlay_sources)` (lines 112-122). -/
def mergedSources (base overlay : Record) : List String :=
  let bs := (base.api_sources.getD []) ++ (if gsCheck base then ["google_scholar"] else [])
  let os := (overlay.api_sources.getD []) ++ (if gsCheck overlay then ["google_scholar"] else [])
  unionList bs os

/-- `merge_faculty_record(base, overlay)` (lines 54-124): starts from a copy
of `base` and assigns `h_index`, `citation_count`, `scholar` (when either
side has scholar data) and `sources`. -/
def mergeFacultyRecord (base overlay : Record) : Record :=
  { base with
    h_index := some (max (effH base) (effH overlay))
    citation_count := some (max (effC base) (effC overlay))
    scholar :=
      if base.scholar.isSome || overlay.scholar.isSome then
        some (mergeScholar (schOf base.scholar) (schOf overlay.scholar))
      else base.scholar
    sources := some (mergedSources base overlay) }

/-! ### `merge_scholar_data` (api_enricher.py lines 462-504) -/

/-- The publication-append loop of `merge_scholar_data` (lines 483-495):
DOIs are compared exactly, titles by exact lowercase equality (no strip,
and the empty title is tracked like any other). -/
def msdPubsGo (dois titles : List String) (acc : List Pub) : List Pub → List Pub
  | [] => acc
  | p :: rest =>
    let d := p.doi.getD ""
    let t := toLowerStr (p.title.getD "")
    if optStrTruthy p.doi && decide (d ∈ dois) then
      msdPubsGo dois titles acc rest
    else if decide (t ∈ titles) then
      msdPubsGo dois titles acc rest
    else
      msdPubsGo (if optStrTruthy p.doi then d :: dois else dois)
        (t :: titles) (acc ++ [p]) rest

/-- `merge_scholar_data(existing, new_data)`: merge new enrichment data with
existing, keeping best values.  `MAX_PUBLICATIONS = 30`.  The guard
`if not existing: return new_data` treats both `None` (here `none`) and the
empty dictionary `{}` (here `emptyScholar`, no keys present) as falsy. -/
def mergeScholarData (existing : Option Scholar) (new_data : Scholar) : Scholar :=
  match existing with
  | none => new_data
  | some ex =>
    if ex = emptyScholar then new_data
    else
    let eh := ex.h_index.getD 0
    let nh := new_data.h_index.getD 0
    let ec := ex.total_citations.getD 0
    let nc := new_data.total_citations.getD 0
    let epubs := ex.publications.getD []
    let edois := (epubs.filterMap Pub.doi).filter (fun s => !(s == ""))
    let etitles := epubs.map (fun p => toLowerStr (p.title.getD ""))
    let pubs := (msdPubsGo edois etitles epubs (new_data.publications.getD [])).take 30
    { ex with
      h_index := if eh < nh then some nh else ex.h_index
      total_citations := if ec < nc then some nc else ex.total_citations
      interests := some ((unionList (ex.interests.getD []) (new_data.interests.getD [])).take 15)
      publications := some pubs
      sources := some (unionList (ex.sources.getD []) [new_data.source.getD "unknown"])
      ksu_verified := some true }

/-! ### `check_ksu_affiliation` and `names_match` (api_enricher.py lines 79-110) -/

/-- An affiliation entry: a dictionary (with optional `display_name` and
`name` keys), a plain string, or any other value. -/
inductive AffEntry where
  | dict (display_name : Option String) (name : Option String)
  | str (s : String)
  | other
deriving DecidableEq

/-- The lowercase string extracted from one affiliation entry (lines 83-87). -/
def extractAff : AffEntry → String
  | .dict dn n => toLowerStr (pyStr dn (pyStr n ""))
  | .str s => toLowerStr s
  | .other => ""

/-- The fixed keyword list of `check_ksu_affiliation` (line 81). -/
def ksuKeywords : List String := ["kennesaw", "ksu", "kennesaw state"]

/-- `check_ksu_affiliation(affiliations)` (lines 79-91). -/
def checkKsuAffiliation (affs : List AffEntry) : Bool :=
  affs.any (fun a => ksuKeywords.any (fun k => strIn k (extractAff a)))

/-- First-initial comparison of the token lists (lines 107-108). -/
def firstInitialEq (p1 p2 : List (List Char)) : Bool :=
  match p1, p2 with
  | t1 :: _, t2 :: _ =>
    match t1, t2 with
    | c1 :: _, c2 :: _ => c1 == c2
    | _, _ => false
  | _, _ => false

/-- `names_match(name1, name2)` (lines 94-110). -/
def namesMatch (name1 name2 : String) : Bool :=
  let a := (lowerStrip name1).data
  let b := (lowerStrip name2).data
  if listSub a b || listSub b a then true
  else
    let p1 := splitWs a
    let p2 := splitWs b
    (!p1.isEmpty) && (!p2.isEmpty) && (p1.getLast? == p2.getLast?) && firstInitialEq p1 p2

/-! ### The `/search` endpoint (search_api.py lines 215-312) -/

/-- One researcher entry of the id-to-record lookup table. -/
structure RInfo where
  name : String
  institution : String
  h_index : Nat
  citations : Nat
deriving DecidableEq

/-- `lookup.get(i, {})`, over an association list. -/
def lookupGet (lk : List (Nat × RInfo)) (i : Nat) : Option RInfo :=
  (lk.find? (fun p => p.1 == i)).map Prod.snd

/-- `lookup.get(i, {}).get('h_index', 0)`. -/
def hOf (lk : List (Nat × RInfo)) (i : Nat) : Nat :=
  ((lookupGet lk i).map RInfo.h_index).getD 0

/-- `lookup.get(i, {}).get('citations', 0)`. -/
def cOf (lk : List (Nat × RInfo)) (i : Nat) : Nat :=
  ((lookupGet lk i).map RInfo.citations).getD 0

/-- Maximum of a list of naturals (0 on the empty list). -/
def maxList (l : List Nat) : Nat := l.foldr max 0

/-- `max(vals(i) for i in fetched, default=1) or 1` (lines 249-250): the
normalization maximum, computed over ALL fetched candidate ids. -/
def normMax (fetched : List (Nat × ℚ)) (vals : Nat → Nat) : Nat :=
  match fetched with
  | [] => 1
  | _ =>
    let m := maxList (fetched.map (fun p => vals p.1))
    if m = 0 then 1 else m

/-- `max_h` of the search endpoint. -/
def maxH (lk : List (Nat × RInfo)) (fetched : List (Nat × ℚ)) : Nat :=
  normMax fetched (hOf lk)

/-- `max_c` of the search endpoint. -/
def maxC (lk : List (Nat × RInfo)) (fetched : List (Nat × ℚ)) : Nat :=
  normMax fetched (cOf lk)

/-- The institution filter predicate (line 264): keep the candidate unless
the filter is truthy and not a case-insensitive substring of the
institution. -/
def instOk (instF : Option String) (inst : String) : Bool :=
  match instF with
  | none => true
  | some f => if f = "" then true else strIn (toLowerStr f) (toLowerStr inst)

/-- A scored candidate of the search endpoint. -/
structure Cand where
  idx : Nat
  semantic_score : ℚ
  weighted_score : ℚ
  researcher : RInfo
deriving DecidableEq

/-- The filtering and scoring loop of `/search` (lines 246-281): drop ids
missing from the lookup, apply the `min_h_index` and institution filters,
and score the survivors against the pre-filter maxima. -/
def searchCandidates (lk : List (Nat × RInfo)) (fetched : List (Nat × ℚ))
    (minH : Nat) (instF : Option String) (hW cW : ℚ) : List Cand :=
  let mh := maxH lk fetched
  let mc := maxC lk fetched
  fetched.filterMap (fun p =>
    match lookupGet lk p.1 with
    | none => none
    | some r =>
      if r.h_index < minH then none
      else if !(instOk instF r.institution) then none
      else
        let w := p.2 * (1 - hW - cW) + ((r.h_index : ℚ) / (mh : ℚ)) * hW +
          ((r.citations : ℚ) / (mc : ℚ)) * cW
        some ⟨p.1, p.2, w, r⟩)

/-- The response candidates of `/search` (lines 283-288): sort descending by
weighted score (stable) and keep the first `limit`. -/
def searchResults (lk : List (Nat × RInfo)) (fetched : List (Nat × ℚ))
    (minH : Nat) (instF : Option String) (hW cW : ℚ) (limit : Nat) : List Cand :=
  (stableSort (fun a b => decide (b.weighted_score ≤ a.weighted_score))
    (searchCandidates lk fetched minH instF hW cW)).take limit

/-- The FastAPI validation of the ranking weights (lines 221-222):
`h_weight: Query(0.3, ge=0, le=1)`, `citation_weight: Query(0.1, ge=0, le=1)`.
Each weight is checked against `[0, 1]` individually; the request is
rejected with a validation error exactly when this returns `false`. -/
def weightsAccepted (hW cW : ℚ) : Bool :=
  decide (0 ≤ hW) && decide (hW ≤ 1) && decide (0 ≤ cW) && decide (cW ≤ 1)

/-- `semantic_weight = 1.0 - h_weight - citation_weight` (line 268). -/
def semanticWeight (hW cW : ℚ) : ℚ := 1 - hW - cW

/-! ### Supporting lemmas -/

/-- `x or 0` on an optional natural equals `getD 0`. -/
theorem pyNat_zero (a : Option Nat) : pyNat a 0 = a.getD 0 := by
  cases a with
  | none => rfl
  | some n =>
    simp only [pyNat, Option.getD]
    split <;> omega

/-- Every member of a list is bounded by `maxList`. -/
theorem le_maxList {a : Nat} {l : List Nat} (h : a ∈ l) : a ≤ maxList l := by
  induction l with
  | nil => cases h
  | cons b t ih =>
    rcases List.mem_cons.mp h with rfl | ht
    · exact Nat.le_max_left _ _
    · exact Nat.le_trans (ih ht) (Nat.le_max_right _ _)

/-- `maxList` is zero or attained by a member. -/
theorem maxList_attained (l : List Nat) : maxList l = 0 ∨ maxList l ∈ l := by
  induction l with
  | nil => exact Or.inl rfl
  | cons b t ih =>
    show max b (maxList t) = 0 ∨ max b (maxList t) ∈ b :: t
    rcases Nat.le_total b (maxList t) with hbt | htb
    · rcases ih with h0 | hmem
      · have hb : b = 0 := by omega
        rw [h0, hb]
        exact Or.inl rfl
      · rw [max_eq_right hbt]
        exact Or.inr (List.mem_cons_of_mem _ hmem)
    · rw [max_eq_left htb]
      exact Or.inr (List.mem_cons_self _ _)

/-- Once a non-empty DOI is in the seen-set, no publication carrying it is
ever emitted by the dedupe loop. -/
theorem dedupeGo_doi_excluded :
    ∀ (pubs : List Pub) (sd st : List String) (d : String),
      d ∈ sd → d ≠ "" → ∀ p ∈ dedupeGo sd st pubs, p.doi ≠ some d := by
  intro pubs
  induction pubs with
  | nil =>
    intro sd st d _ _ p hp
    simp [dedupeGo] at hp
  | cons q rest ih =>
    intro sd st d hsd hd p hp
    simp only [dedupeGo] at hp
    by_cases h1 : (optStrTruthy q.doi && decide ((q.doi.getD "") ∈ sd)) = true
    · rw [if_pos h1] at hp
      exact ih sd st d hsd hd p hp
    · rw [if_neg h1] at hp
      by_cases h2 : (!(normTitle q == "") &&
          st.any fun u => strIn (normTitle q) u || strIn u (normTitle q)) = true
      · rw [if_pos h2] at hp
        exact ih sd st d hsd hd p hp
      · rw [if_neg h2] at hp
        rcases List.mem_cons.mp hp with rfl | hp2
        · intro hqd
          apply h1
          rw [hqd]
          simp [optStrTruthy, hd, hsd]
        · refine ih _ _ d ?_ hd p hp2
          split
          · exact List.mem_cons_of_mem _ hsd
          · exact hsd

/-- The output of the dedupe loop never contains two entries sharing a
non-empty DOI (by exact string comparison). -/
theorem dedupeGo_pairwise :
    ∀ (pubs : List Pub) (sd st : List String),
      List.Pairwise (fun p q => ∀ d : String, p.doi = some d → d ≠ "" → q.doi ≠ some d)
        (dedupeGo sd st pubs) := by
  intro pubs
  induction pubs with
  | nil =>
    intro sd st
    simp [dedupeGo]
  | cons q rest ih =>
    intro sd st
    simp only [dedupeGo]
    by_cases h1 : (optStrTruthy q.doi && decide ((q.doi.getD "") ∈ sd)) = true
    · rw [if_pos h1]
      exact ih sd st
    · rw [if_neg h1]
      by_cases h2 : (!(normTitle q == "") &&
          st.any fun u => strIn (normTitle q) u || strIn u (normTitle q)) = true
      · rw [if_pos h2]
        exact ih sd st
      · rw [if_neg h2]
        refine List.Pairwise.cons ?_ (ih _ _)
        intro r hr d hqd hd
        refine dedupeGo_doi_excluded rest _ _ d ?_ hd r hr
        rw [hqd]
        simp [optStrTruthy, hd]

/-- The dedupe loop keeps every blank (falsy-DOI, empty-title) publication. -/
theorem dedupeGo_filter_blank :
    ∀ (pubs : List Pub) (sd st : List String),
      (dedupeGo sd st pubs).filter pubBlank = pubs.filter pubBlank := by
  intro pubs
  induction pubs with
  | nil =>
    intro sd st
    simp [dedupeGo]
  | cons q rest ih =>
    intro sd st
    simp only [dedupeGo]
    by_cases h1 : (optStrTruthy q.doi && decide ((q.doi.getD "") ∈ sd)) = true
    · rw [if_pos h1, ih]
      have hq : pubBlank q = false := by
        have := (Bool.and_eq_true _ _).mp h1
        simp [pubBlank, this.1]
      simp [List.filter_cons, hq]
    · rw [if_neg h1]
      by_cases h2 : (!(normTitle q == "") &&
          st.any fun u => strIn (normTitle q) u || strIn u (normTitle q)) = true
      · rw [if_pos h2, ih]
        have hq : pubBlank q = false := by
          have := (Bool.and_eq_true _ _).mp h2
          simp only [pubBlank, Bool.and_eq_false_iff]
          right
          simpa using this.1
        simp [List.filter_cons, hq]
      · rw [if_neg h2]
        simp only [List.filter_cons]
        rw [ih]

/-! ### Claim theorems -/

/-- C1 (amended): `merge_faculty_record` returns the base record's
`ksu_verified` flag unchanged and ignores the overlay's, so the merged
verified status is `A.verified`, not `A.verified OR B.verified`;
`merge_scholar_data` instead sets the flag to true whenever the existing
scholar data is truthy (it returns the new data unchanged otherwise). -/
theorem merge_verified_from_base_only :
    (∀ A B : Record, (mergeFacultyRecord A B).ksu_verified = A.ksu_verified) ∧
    (∀ e n : Scholar, e ≠ emptyScholar →
      (mergeScholarData (some e) n).ksu_verified = some true) :=
  ⟨fun _ _ => rfl, fun _ _ he => by simp [mergeScholarData, he]⟩

/-- C1 witness: concrete applications of both parts, discharging the
truthiness hypothesis at an existing scholar dict carrying an `h_index`. -/
theorem merge_verified_from_base_only_witness :
    (mergeFacultyRecord emptyRecord emptyRecord).ksu_verified = emptyRecord.ksu_verified ∧
    (mergeScholarData (some { emptyScholar with h_index := some 1 })
        emptyScholar).ksu_verified = some true :=
  ⟨merge_verified_from_base_only.1 emptyRecord emptyRecord,
    merge_verified_from_base_only.2 { emptyScholar with h_index := some 1 }
      emptyScholar (by decide)⟩

/-- C1 counterexample: an unverified base merged with a verified overlay
stays unverified, refuting `merge(A,B).verified = A.verified OR B.verified`. -/
theorem merge_verified_stickiness_counterexample :
    recVerified (mergeFacultyRecord { emptyRecord with ksu_verified := some false }
        { emptyRecord with ksu_verified := some true }) ≠
      (recVerified { emptyRecord with ksu_verified := some false } ||
        recVerified { emptyRecord with ksu_verified := some true }) := by
  decide

/-- C2 (amended): the search endpoint rejects the ranking weights exactly
when one of them lies outside `[0, 1]` individually; there is no check on
their sum, so accepted weights with `h_weight + citation_weight > 1`
produce a negative semantic weight. -/
theorem search_weight_validation :
    ∀ hW cW : ℚ,
      (weightsAccepted hW cW = true ↔ (0 ≤ hW ∧ hW ≤ 1 ∧ 0 ≤ cW ∧ cW ≤ 1)) ∧
      (weightsAccepted hW cW = true → 1 < hW + cW → semanticWeight hW cW < 0) := by
  intro hW cW
  constructor
  · simp [weightsAccepted, and_assoc]
  · intro _ hsum
    simp only [semanticWeight]
    linarith

/-- C2 witness: at `h_weight = citation_weight = 3/5` the validation
accepts and the semantic weight is negative. -/
theorem search_weight_validation_witness :
    weightsAccepted (3/5) (3/5) = true ∧ semanticWeight (3/5) (3/5) < 0 := by
  constructor
  · exact (search_weight_validation (3/5) (3/5)).1.mpr (by norm_num)
  · exact (search_weight_validation (3/5) (3/5)).2
      ((search_weight_validation (3/5) (3/5)).1.mpr (by norm_num)) (by norm_num)

/-- C2 counterexample: `h_weight = citation_weight = 3/5` has sum `> 1`, so
the claim demands an `InvalidWeights` error, yet the endpoint accepts the
query and scores with semantic weight `-1/5`. -/
theorem search_weight_sum_unchecked :
    weightsAccepted (3/5) (3/5) = true ∧ (1 : ℚ) < 3/5 + 3/5 ∧
      semanticWeight (3/5) (3/5) = -(1/5) := by
  refine ⟨?_, by norm_num, by norm_num [semanticWeight]⟩
  norm_num [weightsAccepted]

/-- C3 (amended): the normalization maximum `max_h` is computed over the
entire fetched candidate set, before the `min_h_index` and institution
filters: every fetched candidate bounds into it, and it is attained by a
fetched candidate unless it is the fallback value 1. -/
theorem search_norm_max_over_all_fetched :
    ∀ (lk : List (Nat × RInfo)) (fetched : List (Nat × ℚ)),
      (∀ p, p ∈ fetched → hOf lk p.1 ≤ maxH lk fetched) ∧
      (maxH lk fetched = 1 ∨ ∃ p, p ∈ fetched ∧ hOf lk p.1 = maxH lk fetched) := by
  intro lk fetched
  constructor
  · intro p hp
    have h1 : hOf lk p.1 ∈ fetched.map (fun q => hOf lk q.1) :=
      List.mem_map_of_mem _ hp
    have h2 := le_maxList h1
    cases fetched with
    | nil => cases hp
    | cons a t =>
      simp only [maxH, normMax]
      split
      · omega
      · exact h2
  · cases fetched with
    | nil => exact Or.inl rfl
    | cons a t =>
      rcases maxList_attained ((a :: t).map (fun q => hOf lk q.1)) with h0 | hmem
      · refine Or.inl ?_
        simp only [List.map_cons] at h0
        simp [maxH, normMax, h0]
      · by_cases hz : maxList ((a :: t).map (fun q => hOf lk q.1)) = 0
        · refine Or.inl ?_
          simp only [List.map_cons] at hz
          simp [maxH, normMax, hz]
        · obtain ⟨p, hp, hval⟩ := List.mem_map.mp hmem
          refine Or.inr ⟨p, hp, ?_⟩
          rw [hval]
          simp only [List.map_cons] at hz
          simp only [maxH, normMax, List.map_cons]
          rw [if_neg hz]

/-- C3 witness: concrete application of the bound and attainment. -/
theorem search_norm_max_witness :
    hOf [(1, ⟨"A", "X", 5, 0⟩)] 1 ≤ maxH [(1, ⟨"A", "X", 5, 0⟩)] [(1, 1)] ∧
      (maxH [(1, ⟨"A", "X", 5, 0⟩)] [(1, 1)] = 1 ∨
        ∃ p, p ∈ [((1 : Nat), (1 : ℚ))] ∧
          hOf [(1, ⟨"A", "X", 5, 0⟩)] p.1 = maxH [(1, ⟨"A", "X", 5, 0⟩)] [(1, 1)]) :=
  ⟨(search_norm_max_over_all_fetched _ _).1 (1, 1) (by simp),
    (search_norm_max_over_all_fetched _ _).2⟩

/-- C3 counterexample: two runs that differ only in a candidate removed by
the institution filter give the same returned researcher different weighted
scores (`33/100` vs `3/5`), so a filtered-out candidate does influence the
scores of returned results. -/
theorem search_filtered_candidate_changes_score :
    (searchResults [(1, ⟨"A", "XU", 100, 0⟩), (2, ⟨"B", "YU", 10, 0⟩)]
        [(1, 1/2), (2, 1/2)] 0 (some "yu") (3/10) (1/10) 20).map Cand.weighted_score
        = [33/100] ∧
    (searchResults [(1, ⟨"A", "XU", 100, 0⟩), (2, ⟨"B", "YU", 10, 0⟩)]
        [(2, 1/2)] 0 (some "yu") (3/10) (1/10) 20).map Cand.weighted_score
        = [3/5] ∧
    ((33 : ℚ)/100 ≠ 3/5) := by
  refine ⟨?_, ?_, by norm_num⟩
  · simp +decide [searchResults, searchCandidates, stableSort, insOrd, maxH, maxC,
      normMax, maxList, hOf, cOf, lookupGet, instOk]
    norm_num
  · simp +decide [searchResults, searchCandidates, stableSort, insOrd, maxH, maxC,
      normMax, maxList, hOf, cOf, lookupGet, instOk]
    norm_num

/-- C4 (amended): `merge_faculty_record` takes the maximum of `h_index`,
`i10_index` and `total_citations` (absent treated as zero, `total_citations`
falling back to `citedby` before zero); `merge_scholar_data`, whenever the
existing scholar data is truthy so that it actually merges, takes the
maximum of `h_index` and `total_citations` but carries the existing
record's `i10_index` unchanged, ignoring the new data's value. -/
theorem merge_metrics_max :
    (∀ bs os : Scholar,
      (mergeScholar bs os).h_index = some (max (bs.h_index.getD 0) (os.h_index.getD 0)) ∧
      (mergeScholar bs os).i10_index = some (max (bs.i10_index.getD 0) (os.i10_index.getD 0)) ∧
      (mergeScholar bs os).total_citations =
        some (max (pyNat bs.total_citations (pyNat bs.citedby 0))
          (pyNat os.total_citations (pyNat os.citedby 0)))) ∧
    (∀ ex n : Scholar, ex ≠ emptyScholar →
      (mergeScholarData (some ex) n).h_index.getD 0 =
        max (ex.h_index.getD 0) (n.h_index.getD 0) ∧
      (mergeScholarData (some ex) n).total_citations.getD 0 =
        max (ex.total_citations.getD 0) (n.total_citations.getD 0) ∧
      (mergeScholarData (some ex) n).i10_index = ex.i10_index) := by
  constructor
  · intro bs os
    refine ⟨?_, ?_, rfl⟩
    · simp [mergeScholar, pyNat_zero]
    · simp [mergeScholar, pyNat_zero]
  · intro ex n hex
    refine ⟨?_, ?_, ?_⟩
    · simp only [mergeScholarData, if_neg hex]
      split
      · simp
        omega
      · simp
        omega
    · simp only [mergeScholarData, if_neg hex]
      split
      · simp
        omega
      · simp
        omega
    · simp only [mergeScholarData, if_neg hex]

/-- C4 witness: at existing `{h_index: 3}` (truthy) and new `{h_index: 7}`,
the merged `h_index` is the maximum 7. -/
theorem merge_metrics_max_witness :
    (mergeScholarData (some { emptyScholar with h_index := some 3 })
        { emptyScholar with h_index := some 7 }).h_index.getD 0 =
      max (({ emptyScholar with h_index := some 3 } : Scholar).h_index.getD 0)
        (({ emptyScholar with h_index := some 7 } : Scholar).h_index.getD 0) :=
  (merge_metrics_max.2 { emptyScholar with h_index := some 3 }
    { emptyScholar with h_index := some 7 } (by decide)).1

/-- C4 counterexample: `merge_scholar_data` with truthy existing data
`{h_index: 3}` (no `i10_index`) and new `i10_index = 5` returns
`i10_index` 0, not the maximum 5. -/
theorem merge_i10_not_merged_counterexample :
    (mergeScholarData (some { emptyScholar with h_index := some 3 })
        { emptyScholar with i10_index := some 5 }).i10_index.getD 0 ≠
      max (({ emptyScholar with h_index := some 3 } : Scholar).i10_index.getD 0)
        (({ emptyScholar with i10_index := some 5 } : Scholar).i10_index.getD 0) := by
  decide

/-- C5 (amended): the deduplicator compares DOIs by exact string equality
(no case folding and no prefix handling of its own; the OpenAlex adapter
strips the `https://doi.org/` prefix at ingestion but preserves case), so
no two output entries share the same non-empty DOI string, while two
entries whose DOIs differ only in case are both kept. -/
theorem dedupe_no_duplicate_exact_doi :
    ∀ pubs : List Pub,
      List.Pairwise (fun p q => ∀ d : String, p.doi = some d → d ≠ "" → q.doi ≠ some d)
        (dedupePublications pubs) :=
  fun pubs => dedupeGo_pairwise pubs [] []

/-- C5 counterexample: two publications whose DOIs agree up to case (and
whose titles are unrelated) are both kept, so the claimed case-insensitive
equivalence is not applied. -/
theorem dedupe_doi_case_counterexample :
    (dedupePublications
        [{ emptyPub with title := some "alpha", doi := some "10.1/ABC" },
         { emptyPub with title := some "beta", doi := some "10.1/abc" }]).length = 2 ∧
      toLowerStr "10.1/ABC" = toLowerStr "10.1/abc" := by
  decide

/-- C6 (amended): on the plain string fields `scholar_id`, `name` and
`affiliation`, the overlay record wins ties: whenever the overlay's value
is non-empty, the merged record carries the overlay's value, using the
base's only as a fallback. -/
theorem merge_overlay_wins_string_ties :
    ∀ bs os : Scholar,
      (∀ s, os.name = some s → s ≠ "" → (mergeScholar bs os).name = some s) ∧
      (∀ s, os.affiliation = some s → s ≠ "" → (mergeScholar bs os).affiliation = some s) ∧
      (∀ s, os.scholar_id = some s → s ≠ "" → (mergeScholar bs os).scholar_id = some s) := by
  intro bs os
  refine ⟨?_, ?_, ?_⟩ <;>
    · intro s hs hne
      simp [mergeScholar, pyStr, hs, hne]

/-- C6 witness: a non-empty overlay name is carried into the merge. -/
theorem merge_overlay_wins_string_ties_witness :
    (mergeScholar { emptyScholar with name := some "alice" }
        { emptyScholar with name := some "bob" }).name = some "bob" :=
  (merge_overlay_wins_string_ties { emptyScholar with name := some "alice" }
    { emptyScholar with name := some "bob" }).1 "bob" rfl (by decide)

/-- C6 counterexample: both records carry a non-empty name, yet the merged
record carries the overlay's name, not the base's. -/
theorem merge_base_loses_string_tie_counterexample :
    ({ emptyScholar with name := some "alice" } : Scholar).name = some "alice" ∧
    ({ emptyScholar with name := some "bob" } : Scholar).name = some "bob" ∧
    (mergeScholar { emptyScholar with name := some "alice" }
        { emptyScholar with name := some "bob" }).name ≠ some "alice" := by
  refine ⟨rfl, rfl, ?_⟩
  decide

/-- C7 (amended): `merge(A, A) = A` only holds for records already in the
merge's normal form (no scholar data, `h_index`, `citation_count`,
`api_sources` materialized, `sources` equal to the recomputed union); in
general the merge materializes keys that were absent in `A`. -/
theorem merge_idempotent_on_normalized :
    ∀ (A : Record) (h c : Nat) (s : List String),
      A.scholar = none → A.h_index = some h → A.citation_count = some c →
      A.api_sources = some s → A.google_scholar_id = none →
      A.sources = some (unionList s s) →
      mergeFacultyRecord A A = A := by
  intro A h c s h1 h2 h3 h4 h5 h6
  have he : effH A = h := by
    rw [effH, h1, h2]
    simp only [Option.none_bind]
    simp only [pyNat]
    split <;> omega
  have hcc : effC A = c := by
    rw [effC, h1, h3]
    simp only [Option.none_bind]
    simp only [pyNat]
    split <;> omega
  have hg : gsCheck A = false := by
    rw [gsCheck, h5, h1]
    decide
  have hms : mergedSources A A = unionList s s := by
    simp [mergedSources, hg, h4]
  ext : 1
  · rfl
  · simp only [mergeFacultyRecord]
    rw [he, Nat.max_self, h2]
  · simp only [mergeFacultyRecord]
    rw [hcc, Nat.max_self, h3]
  · simp [mergeFacultyRecord, h1]
  · rfl
  · rfl
  · simp only [mergeFacultyRecord]
    rw [hms, h6]
  · rfl

/-- C7 witness: a normalized scholar-free record is a fixed point of the
merge. -/
theorem merge_idempotent_on_normalized_witness :
    mergeFacultyRecord
        { emptyRecord with
            h_index := some 3
            citation_count := some 4
            api_sources := some ["openalex"]
            sources := some (unionList ["openalex"] ["openalex"]) }
        { emptyRecord with
            h_index := some 3
            citation_count := some 4
            api_sources := some ["openalex"]
            sources := some (unionList ["openalex"] ["openalex"]) } =
      { emptyRecord with
          h_index := some 3
          citation_count := some 4
          api_sources := some ["openalex"]
          sources := some (unionList ["openalex"] ["openalex"]) } :=
  merge_idempotent_on_normalized _ 3 4 ["openalex"] rfl rfl rfl rfl rfl rfl

/-- C7 counterexample: `merge(A, A) = A` fails in general — already on the
empty record, the merge materializes `h_index`, `citation_count` and
`sources` keys that `A` does not have. -/
theorem merge_not_idempotent_counterexample :
    mergeFacultyRecord emptyRecord emptyRecord ≠ emptyRecord := by
  decide

/-- C8 (amended): `names_match("Dr. Jane A. Smith", "Jane Smith")` returns
FALSE — the middle initial defeats the substring rule (`"jane smith"` is
not contiguous in `"dr. jane a. smith"`), and the token rule compares the
first tokens `"dr."` and `"jane"`, whose initials differ — while
`names_match("John Smith", "Jane Smith")` returns TRUE, since the surnames
are equal and both first initials are `j`. -/
theorem names_match_documented_examples :
    namesMatch "Dr. Jane A. Smith" "Jane Smith" = false ∧
    namesMatch "John Smith" "Jane Smith" = true := by
  decide

/-- C8 counterexample: the matcher returns false on the pair the claim says
matches via the substring rule. -/
theorem names_match_examples_counterexample :
    namesMatch "Dr. Jane A. Smith" "Jane Smith" = false := by
  decide

/-- C9: `check_ksu_affiliation` returns true iff some affiliation entry's
extracted lowercase string contains some target keyword as a substring; an
empty list or entries with missing display names yield false; the
documented Kennesaw/Kent examples behave as stated. -/
theorem check_ksu_affiliation_spec :
    (∀ affs : List AffEntry,
      checkKsuAffiliation affs = true ↔
        ∃ a ∈ affs, ∃ k ∈ ksuKeywords, strIn k (extractAff a) = true) ∧
    checkKsuAffiliation [AffEntry.dict (some "Kennesaw State University") none] = true ∧
    checkKsuAffiliation [AffEntry.dict (some "Kent State University") none] = false ∧
    checkKsuAffiliation [] = false ∧
    checkKsuAffiliation [AffEntry.dict none none] = false := by
  refine ⟨?_, by decide, by decide, by decide, by decide⟩
  intro affs
  simp [checkKsuAffiliation, List.any_eq_true]

/-- C10: the deduplicator keeps every publication whose DOI is falsy and
whose normalized title is empty — such entries are never treated as
duplicates (of each other or of anything), so exact copies all survive. -/
theorem dedupe_keeps_blank_publications :
    (∀ pubs : List Pub,
      (dedupePublications pubs).filter pubBlank = pubs.filter pubBlank) ∧
    dedupePublications [emptyPub, emptyPub] = [emptyPub, emptyPub] := by
  constructor
  · intro pubs
    exact dedupeGo_filter_blank pubs [] []
  · decide

end ProjectIris
